import Mathlib

/-!
# Secrets store of the ingress controller (pkg/k8scontext/secretstore.go)

A shallow embedding of `SecretsStore`: the cache of converted certificates, the
conversion of a TLS secret to a PKCS#12 container through temporary files and an
external `openssl` process, deletion and retrieval.

Every call of the operating system (temporary files, the `openssl` process) has
its outcome supplied by an `Env` value, so that `convertSecret` is a function of
the store, the outcomes, the key and the secret. Each call also returns the
sequence of effects it performed, in order.
-/

namespace K8sContext

/-! ## Go values -/

/-- One byte. -/
abbrev Byte := Fin 256

/-- A Go value of type `[]byte`: `none` is the nil slice, `some l` a non-nil slice
with the elements `l`. -/
abbrev GoBytes := Option (List Byte)

/-- Go's builtin `len` on a `[]byte`; the nil slice has length zero. -/
def len : GoBytes → Nat
  | none => 0
  | some l => l.length

/-- A Go value of type `map[string][]byte`: `none` is the nil map. -/
abbrev GoMap := Option (List (String × GoBytes))

/-- First binding of `k` in a list of map entries. -/
def lookupEntry (k : String) : List (String × GoBytes) → Option GoBytes
  | [] => none
  | (k', v) :: rest => if k' = k then some v else lookupEntry k rest

/-- Go's map indexing `m[k]`: the zero value (the nil slice) when the map is nil
or has no entry for `k`. -/
def index (m : GoMap) (k : String) : GoBytes :=
  match m with
  | none => none
  | some entries =>
    match lookupEntry k entries with
    | none => none
    | some v => v

/-- The two fields of `v1.Secret` (k8s.io/api/core/v1) that the store reads:
`Type` (here `secretType`, a string) and `Data`. The store receives a pointer to
the secret, taken here to be non-nil. -/
structure Secret where
  secretType : String
  Data : GoMap
deriving DecidableEq, Repr

/-! ## Constants -/

def recognizedSecretType : String := "kubernetes.io/tls"

def tlsKey : String := "tls.key"

def tlsCrt : String := "tls.crt"

/-- The error values `convertSecret` returns. They are package-level variables of
`k8scontext` declared outside secretstore.go; only their identity is used. -/
inductive ConvertError where
  | ErrorUnknownSecretType
  | ErrorMalformedSecret
  | ErrorCreatingFile
  | ErrorWritingToFile
  | ErrorExportingWithOpenSSL
deriving DecidableEq, Repr

/-! ## The cache -/

/-- A value stored in the cache, of Go type `interface{}`: either a `[]byte` or a
value of any other dynamic type (told apart by a tag). -/
inductive Obj where
  | bytes (b : GoBytes)
  | other (tag : Nat)
deriving DecidableEq, Repr

/-- Modelled from the spec: the Credential Cache, `cache.ThreadSafeStore` of
k8s.io/client-go, whose source is not part of the examined files. It is a mapping
from identifier to stored value with get, insert-or-overwrite and remove
(spec 4.1); the store is created without indexers, so it is the item map alone.
The map is held as its list of entries; the operations keep at most one entry per
key and never look at the order. -/
structure ThreadSafeStore where
  items : List (String × Obj)
deriving DecidableEq, Repr

/-- First binding of `key` in a list of cache entries. -/
def lookupItem (key : String) : List (String × Obj) → Option Obj
  | [] => none
  | (k, v) :: rest => if k = key then some v else lookupItem key rest

/-- The entries of other keys than `key`. -/
def dropKey (key : String) (items : List (String × Obj)) : List (String × Obj) :=
  items.filter (fun e => decide (e.1 ≠ key))

/-- Modelled from the spec: `cache.NewThreadSafeStore(cache.Indexers{}, cache.Indices{})`,
the empty cache. -/
def NewThreadSafeStore : ThreadSafeStore := ⟨[]⟩

/-- Modelled from the spec: `Get(key) (item, exists)`; `none` stands for
`exists = false`, `some item` for `exists = true` (spec 4.1, `get`). -/
def ThreadSafeStore.Get (c : ThreadSafeStore) (key : String) : Option Obj :=
  lookupItem key c.items

/-- Modelled from the spec: `Add(key, obj)`, which sets the entry of `key` to
`obj` (spec 4.1, `put`: inserts if absent, otherwise overwrites). -/
def ThreadSafeStore.Add (c : ThreadSafeStore) (key : String) (obj : Obj) : ThreadSafeStore :=
  ⟨(key, obj) :: dropKey key c.items⟩

/-- Modelled from the spec: `Update(key, obj)`, which sets the entry of `key` to
`obj` (spec 4.1, `put`: inserts if absent, otherwise overwrites). -/
def ThreadSafeStore.Update (c : ThreadSafeStore) (key : String) (obj : Obj) : ThreadSafeStore :=
  ⟨(key, obj) :: dropKey key c.items⟩

/-- Modelled from the spec: `Delete(key)`, which removes the entry of `key` if
present and does nothing otherwise (spec 4.1, `remove`). -/
def ThreadSafeStore.Delete (c : ThreadSafeStore) (key : String) : ThreadSafeStore :=
  ⟨dropKey key c.items⟩

/-- The keys of the cache, one per entry. -/
def ThreadSafeStore.ListKeys (c : ThreadSafeStore) : List String :=
  c.items.map Prod.fst

/-- The store `SecretsStore`. The mutex `conversionSync` carries no state between
calls in a sequential run: every call that takes it releases it before returning
(see the `lock` and `unlock` effects). -/
structure SecretsStore where
  Cache : ThreadSafeStore
deriving DecidableEq, Repr

/-! ## Effects and outcomes of the operating system -/

/-- What a call did, in order. -/
inductive Effect where
  /-- Effect `s.conversionSync.Lock()`. -/
  | lock
  /-- Effect `s.conversionSync.Unlock()` (deferred). -/
  | unlock
  /-- Effect `glog.Errorf(format, args...)` or `glog.Error(format)`; of the arguments,
  those whose text the outcomes determine (the text of a write error is not). -/
  | glogError (format : String) (args : List String)
  /-- Effect `glog.V(1).Infof(format, args...)`. -/
  | glogInfoV1 (format : String) (args : List String)
  /-- Effect `ioutil.TempFile("", pattern)`, with the name of the file it created
  (`none`: it failed and created nothing). -/
  | tempFile (pattern : String) (created : Option String)
  /-- Effect `fileHandle.Write(data)` on the named file, and whether it succeeded. -/
  | write (name : String) (data : GoBytes) (ok : Bool)
  /-- Effect `fileHandle.Close()` on the named file, and whether it succeeded. -/
  | close (name : String) (ok : Bool)
  /-- Effect `cmd.Run()` of the process with the given arguments. -/
  | run (command : String) (args : List String)
  /-- Effect `os.Remove(name)` (deferred), and whether the file was removed. -/
  | remove (name : String) (ok : Bool)
  /-- Effect `s.Cache.Get(key)`. -/
  | cacheGet (key : String)
  /-- Effect `s.Cache.Add(key, obj)`. -/
  | cacheAdd (key : String) (obj : Obj)
  /-- Effect `s.Cache.Update(key, obj)`. -/
  | cacheUpdate (key : String) (obj : Obj)
  /-- Effect `s.Cache.Delete(key)`. -/
  | cacheDelete (key : String)
deriving DecidableEq, Repr

/-- The outcomes of the operating-system calls one `convertSecret` call can make.
A field is read only if the call it belongs to is reached. -/
structure Env where
  /-- Result of `ioutil.TempFile("", "appgw-ingress-cert")`: the name of the new file, or
  `none` for an error. -/
  tempfileCert : Option String
  /-- Result of `ioutil.TempFile("", "appgw-ingress-key")`. -/
  tempfileKey : Option String
  /-- Whether `Write` on the certificate file succeeds. -/
  writeCert : Bool
  /-- Whether `Close` on the certificate file succeeds. -/
  closeCert : Bool
  /-- Whether `Write` on the key file succeeds. -/
  writeKey : Bool
  /-- Whether `Close` on the key file succeeds. -/
  closeKey : Bool
  /-- Result of `cmd.Run()`: `none` for a nil error, `some msg` for an error whose
  text is `msg`. -/
  runErr : Option String
  /-- What the process wrote to its standard output (`cout`). -/
  cout : List Byte
  /-- What the process wrote to its standard error (`cerr`). -/
  cerr : String
  /-- Whether the deferred `os.Remove` of the certificate file removes it. -/
  removeCert : Bool
  /-- Whether the deferred `os.Remove` of the key file removes it. -/
  removeKey : Bool
deriving DecidableEq, Repr

/-- What a call of `convertSecret` returns and leaves behind: the returned error
(`none` is Go's nil), the store after the call and the effects performed. -/
structure Outcome where
  err : Option ConvertError
  store : SecretsStore
  trace : List Effect
deriving DecidableEq, Repr

/-! ## The operations -/

/-- Function `NewSecretStore`: a store with an empty cache. -/
def NewSecretStore : SecretsStore :=
  ⟨NewThreadSafeStore⟩

/-- Method `GetPfxCertificate`: the stored value when the key has an entry whose
dynamic type is `[]byte`, nil otherwise. It takes no lock. -/
def GetPfxCertificate (s : SecretsStore) (secretKey : String) : GoBytes :=
  match s.Cache.Get secretKey with
  | some (Obj.bytes cert) => cert
  | _ => none

/-- Method `delete`, with the effects it performs. -/
def deleteTraced (s : SecretsStore) (secretKey : String) : SecretsStore × List Effect :=
  (⟨s.Cache.Delete secretKey⟩, [Effect.lock, Effect.cacheDelete secretKey, Effect.unlock])

/-- Method `delete`: the store after the call. -/
def delete (s : SecretsStore) (secretKey : String) : SecretsStore :=
  (deleteTraced s secretKey).1

/-- Function `writeFileDecode`: writes `data` to the file and closes it; the first
failing call is returned as the error (`true`: an error was returned) and the
remaining calls are not made. -/
def writeFileDecode (writeOk closeOk : Bool) (data : GoBytes) (fileHandle : String) :
    Bool × List Effect :=
  if !writeOk then
    (true, [Effect.write fileHandle data false])
  else if !closeOk then
    (true, [Effect.write fileHandle data true, Effect.close fileHandle false])
  else
    (false, [Effect.write fileHandle data true, Effect.close fileHandle true])

/-- The text `%v` prints for an error value. -/
def errorText : Option String → String
  | none => "<nil>"
  | some msg => msg

/-- Lines 93 to 127 of `convertSecret`: what runs once both temporary files exist,
before the deferred removals. -/
def convertStaged (s : SecretsStore) (env : Env) (secretKey : String) (secret : Secret)
    (certName keyName : String) : Outcome :=
  let wc := writeFileDecode env.writeCert env.closeCert (index secret.Data "tls.crt") certName
  if wc.1 then
    ⟨some ConvertError.ErrorWritingToFile, s,
      wc.2 ++ [Effect.glogError
        "unable to write secret [%v].tls.crt to temporary file, error: %v" [secretKey]]⟩
  else
    let wk := writeFileDecode env.writeKey env.closeKey (index secret.Data "tls.key") keyName
    if wk.1 then
      ⟨some ConvertError.ErrorWritingToFile, s,
        wc.2 ++ wk.2 ++ [Effect.glogError
          "unable to write secret [%v].tls.key to temporary file, error: %v" [secretKey]]⟩
    else
      let cmd := Effect.run "openssl"
        ["pkcs12", "-export", "-in", certName, "-inkey", keyName, "-password", "pass:msazure"]
      if env.runErr ≠ none ∨ len (some env.cout) = 0 then
        ⟨some ConvertError.ErrorExportingWithOpenSSL, s,
          wc.2 ++ wk.2 ++ [cmd, Effect.glogError
            "unable to export using openssl, error=[%v], stderr=[%v]"
            [errorText env.runErr, env.cerr]]⟩
      else
        let pfxCert : GoBytes := some env.cout
        let pre := wc.2 ++ wk.2 ++ [cmd, Effect.glogInfoV1 "converted secret [%v]" [secretKey],
          Effect.cacheGet secretKey]
        match s.Cache.Get secretKey with
        | some _ =>
          ⟨none, ⟨s.Cache.Update secretKey (Obj.bytes pfxCert)⟩,
            pre ++ [Effect.cacheUpdate secretKey (Obj.bytes pfxCert)]⟩
        | none =>
          ⟨none, ⟨s.Cache.Add secretKey (Obj.bytes pfxCert)⟩,
            pre ++ [Effect.cacheAdd secretKey (Obj.bytes pfxCert)]⟩

/-- Lines 68 to 127 of `convertSecret`: the body run while the lock is held, with
the deferred `os.Remove` calls run on return in reverse order of their `defer`. -/
def convertLocked (s : SecretsStore) (env : Env) (secretKey : String) (secret : Secret) :
    Outcome :=
  if secret.secretType ≠ recognizedSecretType then
    ⟨some ConvertError.ErrorUnknownSecretType, s,
      [Effect.glogError "secret [%v] is not type kubernetes.io/tls" [secretKey]]⟩
  else if len (index secret.Data tlsKey) = 0 ∨ len (index secret.Data tlsCrt) = 0 then
    ⟨some ConvertError.ErrorMalformedSecret, s,
      [Effect.glogError "secret [%v] is malformed, tls.key or tls.crt is not defined"
        [secretKey]]⟩
  else
    match env.tempfileCert with
    | none =>
      ⟨some ConvertError.ErrorCreatingFile, s,
        [Effect.tempFile "appgw-ingress-cert" none,
         Effect.glogError "unable to create temporary file for certificate conversion" []]⟩
    | some certName =>
      match env.tempfileKey with
      | none =>
        ⟨some ConvertError.ErrorCreatingFile, s,
          [Effect.tempFile "appgw-ingress-cert" (some certName),
           Effect.tempFile "appgw-ingress-key" none,
           Effect.glogError "unable to create temporary file for certificate conversion" [],
           Effect.remove certName env.removeCert]⟩
      | some keyName =>
        let o := convertStaged s env secretKey secret certName keyName
        ⟨o.err, o.store,
          [Effect.tempFile "appgw-ingress-cert" (some certName),
           Effect.tempFile "appgw-ingress-key" (some keyName)] ++ o.trace ++
          [Effect.remove keyName env.removeKey, Effect.remove certName env.removeCert]⟩

/-- Method `convertSecret`: takes the lock, runs the body and releases the lock on
return. -/
def convertSecret (s : SecretsStore) (env : Env) (secretKey : String) (secret : Secret) :
    Outcome :=
  let o := convertLocked s env secretKey secret
  ⟨o.err, o.store, [Effect.lock] ++ o.trace ++ [Effect.unlock]⟩

/-! ## Sequences of calls -/

/-- A mutating call on the store, with the secret and the operating-system
outcomes of a conversion. -/
inductive Op where
  | convert (secretKey : String) (secret : Secret) (env : Env)
  | delete (secretKey : String)
deriving DecidableEq, Repr

/-- The store after one call. -/
def step (s : SecretsStore) : Op → SecretsStore
  | Op.convert secretKey secret env => (convertSecret s env secretKey secret).store
  | Op.delete secretKey => delete s secretKey

/-- The store after a sequence of calls, made one after the other. -/
def runOps (s : SecretsStore) : List Op → SecretsStore
  | [] => s
  | op :: rest => runOps (step s op) rest

/-- What a call was, as seen from outside: a conversion attempt for a key and
whether it returned nil, or a deletion of a key. -/
inductive Event where
  | converted (secretKey : String) (succeeded : Bool)
  | deleted (secretKey : String)
deriving DecidableEq, Repr

/-- The event of one call made on the store `s`. -/
def eventOf (s : SecretsStore) : Op → Event
  | Op.convert secretKey secret env =>
    Event.converted secretKey (decide ((convertSecret s env secretKey secret).err = none))
  | Op.delete secretKey => Event.deleted secretKey

/-- The events of a sequence of calls started on `s`, oldest first. -/
def history (s : SecretsStore) : List Op → List Event
  | [] => []
  | op :: rest => eventOf s op :: history (step s op) rest

/-! ## Conditions on the inputs -/

/-- The field `name` is missing from the data map (a nil map has no field) or is
present with zero length. -/
def MissingOrEmpty (m : GoMap) (name : String) : Prop :=
  m = none ∨ (∃ es, m = some es ∧ lookupEntry name es = none) ∨
    (∃ es v, m = some es ∧ lookupEntry name es = some v ∧ len v = 0)

/-- Staging succeeds: both temporary files are created and both are written and
closed without error. -/
def stagingSucceeds (env : Env) : Prop :=
  env.tempfileCert ≠ none ∧ env.tempfileKey ≠ none ∧
    env.writeCert = true ∧ env.closeCert = true ∧ env.writeKey = true ∧ env.closeKey = true

/-- The secret passes the type check and the field presence check. -/
def passesChecks (secret : Secret) : Prop :=
  secret.secretType = recognizedSecretType ∧
    len (index secret.Data tlsKey) ≠ 0 ∧ len (index secret.Data tlsCrt) ≠ 0

/-- The condition of the cache invariant as the specification words it: the most
recent conversion attempt for `id` succeeded and no deletion of `id` came after
it. The history is oldest first. -/
def MostRecentAttemptSucceeded (id : String) (h : List Event) : Prop :=
  ∃ pre post, h = pre ++ Event.converted id true :: post ∧
    (∀ ok, Event.converted id ok ∉ post) ∧ Event.deleted id ∉ post

/-- Some conversion attempt for `id` succeeded and no deletion of `id` came after
it; later failed attempts for `id` are allowed. -/
def SucceededAndNotDeleted (id : String) (h : List Event) : Prop :=
  ∃ pre post, h = pre ++ Event.converted id true :: post ∧ Event.deleted id ∉ post

/-- Every entry of the cache is a non-empty byte sequence. -/
def entriesNonEmpty (s : SecretsStore) : Prop :=
  ∀ e ∈ s.Cache.items, ∃ b : List Byte, e.2 = Obj.bytes (some b) ∧ b ≠ []

/-! ## Sample inputs -/

/-- A secret of the recognized type with both fields filled. -/
def sampleSecret : Secret :=
  ⟨"kubernetes.io/tls", some [("tls.crt", some [45, 45]), ("tls.key", some [45, 66])]⟩

/-- A secret of another type. -/
def opaqueSecret : Secret :=
  ⟨"Opaque", some [("tls.crt", some [45, 45]), ("tls.key", some [45, 66])]⟩

/-- Outcomes where every call succeeds and the process prints `out`. -/
def goodEnv (out : List Byte) : Env :=
  ⟨some "/tmp/appgw-ingress-cert1", some "/tmp/appgw-ingress-key2", true, true, true, true,
    none, out, "", true, true⟩

/-- A store holding one converted certificate under "tls-a". -/
def sampleStore : SecretsStore :=
  ⟨⟨[("tls-a", Obj.bytes (some [48, 130]))]⟩⟩

/-- A successful conversion for "tls-a" followed by an attempt for "tls-a" with a
secret of another type. -/
def failedRetryOps : List Op :=
  [Op.convert "tls-a" sampleSecret (goodEnv [48, 130, 9]),
   Op.convert "tls-a" opaqueSecret (goodEnv [48, 130, 9])]


/-- Outcomes where both files are staged and the process fails with the given
text on its standard error, printing nothing on its standard output. -/
def failedRunEnv (stderr : String) : Env :=
  ⟨some "/tmp/appgw-ingress-cert1", some "/tmp/appgw-ingress-key2", true, true, true, true,
    some "exit status 1", [], stderr, true, true⟩

/-- Outcomes where every call succeeds and the process prints `out`, except that
the deferred `os.Remove` of the certificate file returns an error, which the
`defer` statement discards. -/
def stuckRemoveEnv (out : List Byte) : Env :=
  ⟨some "/tmp/appgw-ingress-cert1", some "/tmp/appgw-ingress-key2", true, true, true, true,
    none, out, "", false, true⟩

/-- A secret of another type whose data map is nil. -/
def opaqueEmptySecret : Secret :=
  ⟨"Opaque", none⟩

/-! ## The steps of a conversion -/

/-- The steps of a conversion. -/
inductive ConvertStep where
  | typeCheck
  | fieldCheck
  | stagingAllocation
  | stagingWrite
  | packaging
deriving DecidableEq, Repr

/-- The steps in the order the specification gives them. -/
def stepOrder : List ConvertStep :=
  [ConvertStep.typeCheck, ConvertStep.fieldCheck, ConvertStep.stagingAllocation,
   ConvertStep.stagingWrite, ConvertStep.packaging]

/-- Whether a step, taken on its own, fails on the secret under the outcomes:
the type differs from the recognized one; a required field has length zero; a
temporary file cannot be created; a write or close of a temporary file returns an
error; the process returns an error or prints nothing. -/
def stepFails (secret : Secret) (env : Env) : ConvertStep → Bool
  | ConvertStep.typeCheck => decide (secret.secretType ≠ recognizedSecretType)
  | ConvertStep.fieldCheck =>
    decide (len (index secret.Data tlsKey) = 0 ∨ len (index secret.Data tlsCrt) = 0)
  | ConvertStep.stagingAllocation => decide (env.tempfileCert = none ∨ env.tempfileKey = none)
  | ConvertStep.stagingWrite =>
    !(env.writeCert && env.closeCert && env.writeKey && env.closeKey)
  | ConvertStep.packaging => decide (env.runErr ≠ none ∨ env.cout = [])

/-- The error value that reports the failure of a step. -/
def stepError : ConvertStep → ConvertError
  | ConvertStep.typeCheck => ConvertError.ErrorUnknownSecretType
  | ConvertStep.fieldCheck => ConvertError.ErrorMalformedSecret
  | ConvertStep.stagingAllocation => ConvertError.ErrorCreatingFile
  | ConvertStep.stagingWrite => ConvertError.ErrorWritingToFile
  | ConvertStep.packaging => ConvertError.ErrorExportingWithOpenSSL

/-- The first step of `stepOrder` that fails, if any. -/
def firstFailingStep (secret : Secret) (env : Env) : Option ConvertStep :=
  stepOrder.find? (stepFails secret env)

/-- The effect is a call of `ioutil.TempFile`. -/
def Effect.isTempFile : Effect → Bool
  | Effect.tempFile _ _ => true
  | _ => false

/-- The effect is a run of the external process. -/
def Effect.isRun : Effect → Bool
  | Effect.run _ _ => true
  | _ => false

/-! ## Staging files -/

/-- The staging files after one effect: a successful `ioutil.TempFile` adds the
file it created, an `os.Remove` that succeeds takes the named file away, and no
other effect changes the set. -/
def stagingAfterEffect (files : List String) : Effect → List String
  | Effect.tempFile _ (some name) => name :: files
  | Effect.remove name true => files.filter (fun f => decide (f ≠ name))
  | _ => files

/-- The staging files after a sequence of effects. -/
def stagingAfter (files : List String) (trace : List Effect) : List String :=
  trace.foldl stagingAfterEffect files

/-- What `ioutil.TempFile` guarantees of the names it returns: each names a file
that did not exist, so the two differ from the files already there and from each
other. -/
def freshNames (env : Env) (files : List String) : Prop :=
  (∀ c, env.tempfileCert = some c → c ∉ files) ∧
    (∀ k, env.tempfileKey = some k → k ∉ files ∧ env.tempfileCert ≠ some k)

/-- The effect neither creates nor removes a staging file. -/
def Effect.keepsStaging : Effect → Bool
  | Effect.tempFile _ (some _) => false
  | Effect.remove _ true => false
  | _ => true

/-! ## The cache operations -/

theorem lookupItem_dropKey_self (key : String) (items : List (String × Obj)) :
    lookupItem key (dropKey key items) = none := by
  induction items with
  | nil => rfl
  | cons e rest ih =>
    obtain ⟨k, v⟩ := e
    by_cases h : k = key
    · simpa [dropKey, List.filter_cons, h] using ih
    · simpa [dropKey, List.filter_cons, h, lookupItem] using ih

theorem lookupItem_dropKey_ne (key other : String) (h : other ≠ key)
    (items : List (String × Obj)) :
    lookupItem other (dropKey key items) = lookupItem other items := by
  induction items with
  | nil => rfl
  | cons e rest ih =>
    obtain ⟨k, v⟩ := e
    by_cases hk : k = key
    · have hne : ¬ k = other := fun hko => h (hko ▸ hk)
      simpa [dropKey, List.filter_cons, hk, lookupItem, hne, hk ▸ hne] using ih
    · by_cases ho : k = other
      · subst ho
        simp [dropKey, List.filter_cons, hk, lookupItem]
      · simpa [dropKey, List.filter_cons, hk, lookupItem, ho] using ih

theorem not_mem_keys_dropKey (key : String) (items : List (String × Obj)) :
    key ∉ (dropKey key items).map Prod.fst := by
  simp [dropKey, List.mem_map, List.mem_filter]

theorem Get_Add_self (c : ThreadSafeStore) (key : String) (obj : Obj) :
    (c.Add key obj).Get key = some obj := by
  simp [ThreadSafeStore.Add, ThreadSafeStore.Get, lookupItem]

theorem Get_Update_self (c : ThreadSafeStore) (key : String) (obj : Obj) :
    (c.Update key obj).Get key = some obj := by
  simp [ThreadSafeStore.Update, ThreadSafeStore.Get, lookupItem]

theorem Get_Delete_self (c : ThreadSafeStore) (key : String) :
    (c.Delete key).Get key = none := by
  simp [ThreadSafeStore.Delete, ThreadSafeStore.Get, lookupItem_dropKey_self]

theorem Get_Delete_ne (c : ThreadSafeStore) (key other : String) (h : other ≠ key) :
    (c.Delete key).Get other = c.Get other := by
  simp [ThreadSafeStore.Delete, ThreadSafeStore.Get, lookupItem_dropKey_ne key other h]

/-- The entries after a key was set: the new entry, then the entries of the other keys. -/
theorem Get_set (key other : String) (obj : Obj) (items : List (String × Obj)) :
    lookupItem other ((key, obj) :: dropKey key items) =
      if key = other then some obj else lookupItem other items := by
  by_cases h : key = other
  · simp [lookupItem, h]
  · have h2 : other ≠ key := fun e => h e.symm
    simp [lookupItem, h, lookupItem_dropKey_ne key other h2]

/-! ## What a conversion does to the store -/

/-- A conversion that returns an error leaves the store as it was. -/
theorem convertSecret_failure (s : SecretsStore) (env : Env) (secretKey : String)
    (secret : Secret) (h : (convertSecret s env secretKey secret).err ≠ none) :
    (convertSecret s env secretKey secret).store = s := by
  revert h
  unfold convertSecret convertLocked convertStaged writeFileDecode
  simp only []
  repeat' split
  all_goals simp_all

/-- A conversion that returns nil has set the entry of its key to the bytes the
process printed, which are not empty, and has kept the entries of the other keys. -/
theorem convertSecret_success (s : SecretsStore) (env : Env) (secretKey : String)
    (secret : Secret) (h : (convertSecret s env secretKey secret).err = none) :
    env.cout ≠ [] ∧ (convertSecret s env secretKey secret).store.Cache.items =
      (secretKey, Obj.bytes (some env.cout)) :: dropKey secretKey s.Cache.items := by
  revert h
  unfold convertSecret convertLocked convertStaged writeFileDecode
  simp only []
  repeat' split
  all_goals simp_all [ThreadSafeStore.Add, ThreadSafeStore.Update, len]


/-! ## Validation, conversion and overwrite -/

/-- C1: a record whose type is not "kubernetes.io/tls" makes convertSecret return
ErrorUnknownSecretType, whatever its data fields and the outcomes of the operating
system are, and GetPfxCertificate of the identifier returns the same value after
the call as before it. -/
theorem convertSecret_unknown_type (s : SecretsStore) (env : Env) (id : String)
    (secret : Secret) (h : secret.secretType ≠ recognizedSecretType) :
    (convertSecret s env id secret).err = some ConvertError.ErrorUnknownSecretType ∧
      GetPfxCertificate (convertSecret s env id secret).store id = GetPfxCertificate s id := by
  simp [convertSecret, convertLocked, h]

theorem convertSecret_unknown_type_witness :
    opaqueSecret.secretType ≠ recognizedSecretType ∧
      (convertSecret sampleStore (goodEnv [48, 130, 9]) "tls-a" opaqueSecret).err =
        some ConvertError.ErrorUnknownSecretType ∧
      GetPfxCertificate (convertSecret sampleStore (goodEnv [48, 130, 9]) "tls-a"
        opaqueSecret).store "tls-a" = GetPfxCertificate sampleStore "tls-a" :=
  ⟨by decide,
    convertSecret_unknown_type sampleStore (goodEnv [48, 130, 9]) "tls-a" opaqueSecret
      (by decide)⟩

/-- The presence check of convertSecret fails on a field that is missing or empty. -/
theorem len_index_of_missingOrEmpty (m : GoMap) (name : String) (h : MissingOrEmpty m name) :
    len (index m name) = 0 := by
  rcases h with h | ⟨es, hm, hl⟩ | ⟨es, v, hm, hl, hv⟩
  · subst h; rfl
  · subst hm; simp [index, hl, len]
  · subst hm; simpa [index, hl] using hv

/-- C2: a record of type "kubernetes.io/tls" whose "tls.crt" or "tls.key" field is
missing from the data map (a nil map included) or present with zero length makes
convertSecret return ErrorMalformedSecret and leaves the cache unchanged. -/
theorem convertSecret_malformed (s : SecretsStore) (env : Env) (id : String)
    (secret : Secret) (ht : secret.secretType = recognizedSecretType)
    (hf : MissingOrEmpty secret.Data tlsCrt ∨ MissingOrEmpty secret.Data tlsKey) :
    (convertSecret s env id secret).err = some ConvertError.ErrorMalformedSecret ∧
      (convertSecret s env id secret).store.Cache = s.Cache := by
  have hz : len (index secret.Data tlsKey) = 0 ∨ len (index secret.Data tlsCrt) = 0 := by
    rcases hf with hf | hf
    · exact Or.inr (len_index_of_missingOrEmpty _ _ hf)
    · exact Or.inl (len_index_of_missingOrEmpty _ _ hf)
  simp [convertSecret, convertLocked, ht, hz]

theorem convertSecret_malformed_witness :
    (⟨"kubernetes.io/tls", some [("tls.crt", some [45, 45]), ("tls.key", some [])]⟩ :
        Secret).secretType = recognizedSecretType ∧
      (convertSecret sampleStore (goodEnv [48, 130, 9]) "tls-a"
        ⟨"kubernetes.io/tls", some [("tls.crt", some [45, 45]), ("tls.key", some [])]⟩).err =
          some ConvertError.ErrorMalformedSecret ∧
      (convertSecret sampleStore (goodEnv [48, 130, 9]) "tls-a"
        ⟨"kubernetes.io/tls", some [("tls.crt", some [45, 45]), ("tls.key", some [])]⟩).store.Cache =
          sampleStore.Cache :=
  ⟨by decide,
    convertSecret_malformed sampleStore (goodEnv [48, 130, 9]) "tls-a"
      ⟨"kubernetes.io/tls", some [("tls.crt", some [45, 45]), ("tls.key", some [])]⟩
      (by decide)
      (Or.inr (Or.inr (Or.inr ⟨_, some [], rfl, by decide, by decide⟩)))⟩

/-- C3: for a record of type "kubernetes.io/tls" with non-empty "tls.crt" and
"tls.key", when staging succeeds and the packager succeeds with a non-empty output
b, convertSecret returns nil and a following GetPfxCertificate of the identifier
returns exactly b, a non-empty byte sequence. -/
theorem convertSecret_roundtrip (s : SecretsStore) (env : Env) (id : String)
    (secret : Secret) (b : List Byte) (hs : passesChecks secret) (hst : stagingSucceeds env)
    (hrun : env.runErr = none) (hout : env.cout = b) (hb : b ≠ []) :
    (convertSecret s env id secret).err = none ∧
      GetPfxCertificate (convertSecret s env id secret).store id = some b ∧
      0 < len (GetPfxCertificate (convertSecret s env id secret).store id) := by
  obtain ⟨ht, hk, hc⟩ := hs
  obtain ⟨h1, h2, h3, h4, h5, h6⟩ := hst
  obtain ⟨cn, hcn⟩ := Option.ne_none_iff_exists'.mp h1
  obtain ⟨kn, hkn⟩ := Option.ne_none_iff_exists'.mp h2
  have hlen : ¬ len (some env.cout) = 0 := by
    simpa [len, hout] using hb
  have herr : (convertSecret s env id secret).err = none := by
    cases hg : s.Cache.Get id <;>
      simp [convertSecret, convertLocked, convertStaged, writeFileDecode, ht, hk, hc, hcn,
        hkn, h3, h4, h5, h6, hrun, hlen, hg]
  have hitems := (convertSecret_success s env id secret herr).2
  have hget : GetPfxCertificate (convertSecret s env id secret).store id = some b := by
    simp [GetPfxCertificate, ThreadSafeStore.Get, hitems, lookupItem, hout]
  refine ⟨herr, hget, ?_⟩
  rw [hget]
  exact List.length_pos.mpr hb

theorem convertSecret_roundtrip_witness :
    passesChecks sampleSecret ∧ stagingSucceeds (goodEnv [48, 130, 9]) ∧
      (convertSecret NewSecretStore (goodEnv [48, 130, 9]) "tls-a" sampleSecret).err = none ∧
      GetPfxCertificate (convertSecret NewSecretStore (goodEnv [48, 130, 9]) "tls-a"
        sampleSecret).store "tls-a" = some [48, 130, 9] ∧
      0 < len (GetPfxCertificate (convertSecret NewSecretStore (goodEnv [48, 130, 9]) "tls-a"
        sampleSecret).store "tls-a") :=
  ⟨by unfold passesChecks; decide, by unfold stagingSucceeds; decide,
    convertSecret_roundtrip NewSecretStore (goodEnv [48, 130, 9]) "tls-a" sampleSecret
      [48, 130, 9] (by unfold passesChecks; decide) (by unfold stagingSucceeds; decide)
      rfl rfl (by decide)⟩

/-- C4: whenever convertSecret returns an error, whichever it is and whatever the
outcomes of staging and of the packager are, the whole cache is identical to the
cache before the call. -/
theorem convertSecret_error_cache_unchanged (s : SecretsStore) (env : Env) (id : String)
    (secret : Secret) (e : ConvertError) (h : (convertSecret s env id secret).err = some e) :
    (convertSecret s env id secret).store.Cache = s.Cache := by
  rw [convertSecret_failure s env id secret (by simp [h])]

theorem convertSecret_error_cache_unchanged_witness :
    (convertSecret sampleStore (goodEnv []) "tls-a" sampleSecret).err =
        some ConvertError.ErrorExportingWithOpenSSL ∧
      (convertSecret sampleStore (goodEnv []) "tls-a" sampleSecret).store.Cache =
        sampleStore.Cache :=
  ⟨by decide,
    convertSecret_error_cache_unchanged sampleStore (goodEnv []) "tls-a" sampleSecret
      ConvertError.ErrorExportingWithOpenSSL (by decide)⟩


/-- A successful conversion for a key without entry commits through `Add`. -/
theorem convertSecret_commit_add (s : SecretsStore) (env : Env) (secretKey : String)
    (secret : Secret) (h : (convertSecret s env secretKey secret).err = none)
    (hg : s.Cache.Get secretKey = none) :
    Effect.cacheAdd secretKey (Obj.bytes (some env.cout)) ∈
      (convertSecret s env secretKey secret).trace := by
  revert h
  unfold convertSecret convertLocked convertStaged writeFileDecode
  simp only [hg]
  repeat' split
  all_goals simp

/-- A successful conversion for a key with an entry commits through `Update`. -/
theorem convertSecret_commit_update (s : SecretsStore) (env : Env) (secretKey : String)
    (secret : Secret) (h : (convertSecret s env secretKey secret).err = none)
    (hg : s.Cache.Get secretKey ≠ none) :
    Effect.cacheUpdate secretKey (Obj.bytes (some env.cout)) ∈
      (convertSecret s env secretKey secret).trace := by
  obtain ⟨o, ho⟩ := Option.ne_none_iff_exists'.mp hg
  revert h
  unfold convertSecret convertLocked convertStaged writeFileDecode
  simp only [ho]
  repeat' split
  all_goals simp


/-- C5: when two successive convertSecret calls on the same identifier both
succeed, with packager outputs b1 and then b2, GetPfxCertificate returns exactly
b2 afterwards and the cache holds a single entry for the identifier. The first
commit goes through Add when the identifier had no entry and through Update when it
had one, the second always through Update, and the result is the same. -/
theorem convertSecret_overwrite (s : SecretsStore) (env1 env2 : Env) (id : String)
    (secret1 secret2 : Secret) (b1 b2 : List Byte)
    (hb1 : env1.cout = b1) (hb2 : env2.cout = b2)
    (h1 : (convertSecret s env1 id secret1).err = none)
    (h2 : (convertSecret (convertSecret s env1 id secret1).store env2 id secret2).err = none) :
    GetPfxCertificate
        (convertSecret (convertSecret s env1 id secret1).store env2 id secret2).store id =
        some b2 ∧
      (convertSecret (convertSecret s env1 id secret1).store env2 id
        secret2).store.Cache.ListKeys.count id = 1 ∧
      (s.Cache.Get id = none →
        Effect.cacheAdd id (Obj.bytes (some b1)) ∈ (convertSecret s env1 id secret1).trace) ∧
      (s.Cache.Get id ≠ none →
        Effect.cacheUpdate id (Obj.bytes (some b1)) ∈ (convertSecret s env1 id secret1).trace) ∧
      Effect.cacheUpdate id (Obj.bytes (some b2)) ∈
        (convertSecret (convertSecret s env1 id secret1).store env2 id secret2).trace := by
  have hi1 := (convertSecret_success s env1 id secret1 h1).2
  have hi2 := (convertSecret_success _ env2 id secret2 h2).2
  have hg1 : (convertSecret s env1 id secret1).store.Cache.Get id ≠ none := by
    simp [ThreadSafeStore.Get, hi1, lookupItem]
  refine ⟨?_, ?_, ?_, ?_, ?_⟩
  · simp [GetPfxCertificate, ThreadSafeStore.Get, hi2, lookupItem, hb2]
  · have hn := not_mem_keys_dropKey id (convertSecret s env1 id secret1).store.Cache.items
    simp only [ThreadSafeStore.ListKeys, hi2, List.map_cons, List.count_cons_self]
    rw [List.count_eq_zero_of_not_mem hn]
  · intro hg
    have := convertSecret_commit_add s env1 id secret1 h1 hg
    simpa [hb1] using this
  · intro hg
    have := convertSecret_commit_update s env1 id secret1 h1 hg
    simpa [hb1] using this
  · have := convertSecret_commit_update _ env2 id secret2 h2 hg1
    simpa [hb2] using this

theorem convertSecret_overwrite_witness :
    (convertSecret NewSecretStore (goodEnv [48, 130, 9]) "tls-a" sampleSecret).err = none ∧
      (convertSecret (convertSecret NewSecretStore (goodEnv [48, 130, 9]) "tls-a"
        sampleSecret).store (goodEnv [48, 131]) "tls-a" sampleSecret).err = none ∧
      (GetPfxCertificate
        (convertSecret (convertSecret NewSecretStore (goodEnv [48, 130, 9]) "tls-a"
          sampleSecret).store (goodEnv [48, 131]) "tls-a" sampleSecret).store "tls-a" =
        some [48, 131] ∧
      (convertSecret (convertSecret NewSecretStore (goodEnv [48, 130, 9]) "tls-a"
        sampleSecret).store (goodEnv [48, 131]) "tls-a"
        sampleSecret).store.Cache.ListKeys.count "tls-a" = 1 ∧
      (NewSecretStore.Cache.Get "tls-a" = none →
        Effect.cacheAdd "tls-a" (Obj.bytes (some [48, 130, 9])) ∈
          (convertSecret NewSecretStore (goodEnv [48, 130, 9]) "tls-a" sampleSecret).trace) ∧
      (NewSecretStore.Cache.Get "tls-a" ≠ none →
        Effect.cacheUpdate "tls-a" (Obj.bytes (some [48, 130, 9])) ∈
          (convertSecret NewSecretStore (goodEnv [48, 130, 9]) "tls-a" sampleSecret).trace) ∧
      Effect.cacheUpdate "tls-a" (Obj.bytes (some [48, 131])) ∈
        (convertSecret (convertSecret NewSecretStore (goodEnv [48, 130, 9]) "tls-a"
          sampleSecret).store (goodEnv [48, 131]) "tls-a" sampleSecret).trace) :=
  ⟨by decide, by decide,
    convertSecret_overwrite NewSecretStore (goodEnv [48, 130, 9]) (goodEnv [48, 131]) "tls-a"
      sampleSecret sampleSecret [48, 130, 9] [48, 131] rfl rfl (by decide) (by decide)⟩


/-- C6: after delete of an identifier, GetPfxCertificate of that identifier
returns nil, from every store state and in particular right after a successful
conversion for it. -/
theorem delete_then_get_absent (s : SecretsStore) (env : Env) (id : String) (secret : Secret) :
    GetPfxCertificate (delete s id) id = none ∧
      GetPfxCertificate (delete (convertSecret s env id secret).store id) id = none := by
  simp [GetPfxCertificate, delete, deleteTraced, Get_Delete_self]

/-! ## Reachable states -/

theorem succeededAndNotDeleted_nil (id : String) : ¬ SucceededAndNotDeleted id [] := by
  rintro ⟨pre, post, h, -⟩
  simp at h

theorem succeededAndNotDeleted_cons (id : String) (e : Event) (h : List Event) :
    SucceededAndNotDeleted id (e :: h) ↔
      (e = Event.converted id true ∧ Event.deleted id ∉ h) ∨ SucceededAndNotDeleted id h := by
  constructor
  · rintro ⟨pre, post, heq, hd⟩
    cases pre with
    | nil =>
      simp only [List.nil_append, List.cons.injEq] at heq
      exact Or.inl ⟨heq.1, heq.2 ▸ hd⟩
    | cons x pre =>
      simp only [List.cons_append, List.cons.injEq] at heq
      exact Or.inr ⟨pre, post, heq.2, hd⟩
  · rintro (⟨he, hd⟩ | ⟨pre, post, heq, hd⟩)
    · exact ⟨[], h, by simp [he], hd⟩
    · exact ⟨e :: pre, post, by simp [heq], hd⟩

/-- Whether a key has an entry after one call. -/
theorem step_has_entry (s : SecretsStore) (op : Op) (id : String) :
    (step s op).Cache.Get id ≠ none ↔
      (eventOf s op = Event.converted id true ∨
        (s.Cache.Get id ≠ none ∧ eventOf s op ≠ Event.deleted id)) := by
  cases op with
  | convert k secret env =>
    by_cases herr : (convertSecret s env k secret).err = none
    · have hi := (convertSecret_success s env k secret herr).2
      simp only [step, eventOf, herr, ThreadSafeStore.Get, hi, Get_set]
      by_cases hk : k = id <;> simp [hk]
    · have hst := convertSecret_failure s env k secret herr
      simp [step, eventOf, herr, hst]
  | delete k =>
    by_cases hk : k = id
    · subst hk
      simp [step, eventOf, delete, deleteTraced, Get_Delete_self]
    · have hne : id ≠ k := fun e => hk e.symm
      simp [step, eventOf, delete, deleteTraced, Get_Delete_ne _ k id hne, hk]

/-- The cache entry of a key after a sequence of calls started on any store. -/
theorem runOps_has_entry (ops : List Op) (s : SecretsStore) (id : String) :
    (runOps s ops).Cache.Get id ≠ none ↔
      (SucceededAndNotDeleted id (history s ops) ∨
        (s.Cache.Get id ≠ none ∧ Event.deleted id ∉ history s ops)) := by
  induction ops generalizing s with
  | nil => simp [runOps, history, succeededAndNotDeleted_nil]
  | cons op rest ih =>
    rw [runOps, history, ih (step s op), succeededAndNotDeleted_cons, step_has_entry]
    simp only [List.mem_cons, not_or]
    constructor
    · rintro (h | ⟨h | ⟨h1, h2⟩, h3⟩)
      · exact Or.inl (Or.inr h)
      · exact Or.inl (Or.inl ⟨h, h3⟩)
      · exact Or.inr ⟨h1, fun e => h2 e.symm, h3⟩
    · rintro ((⟨h, h3⟩ | h) | ⟨h1, h2, h3⟩)
      · exact Or.inr ⟨Or.inl h, h3⟩
      · exact Or.inl h
      · exact Or.inr ⟨Or.inr ⟨h1, fun e => h2 e.symm⟩, h3⟩

/-- C7 as stated fails: after a successful conversion for "tls-a" and then a failed
attempt for "tls-a", the cache still has the entry although the most recent
attempt did not succeed. -/
theorem cache_invariant_most_recent_counterexample :
    ¬ ((runOps NewSecretStore failedRetryOps).Cache.Get "tls-a" ≠ none ↔
        MostRecentAttemptSucceeded "tls-a" (history NewSecretStore failedRetryOps)) := by
  have hentry : (runOps NewSecretStore failedRetryOps).Cache.Get "tls-a" ≠ none := by decide
  have hhist : history NewSecretStore failedRetryOps =
      [Event.converted "tls-a" true, Event.converted "tls-a" false] := by decide
  intro hiff
  obtain ⟨pre, post, heq, hno, -⟩ := hiff.mp hentry
  rw [hhist] at heq
  rcases pre with _ | ⟨x, _ | ⟨y, pre⟩⟩
  · simp only [List.nil_append, List.cons.injEq, true_and] at heq
    exact hno false (by simp [← heq])
  · simp at heq
  · simp at heq

/-- C7, amended: in every state reachable from NewSecretStore by convertSecret and
delete calls, the cache has an entry for an identifier if and only if some
convertSecret attempt for it succeeded and no delete of it happened after that
attempt. -/
theorem cache_invariant_succeeded_not_deleted (ops : List Op) (id : String) :
    (runOps NewSecretStore ops).Cache.Get id ≠ none ↔
      SucceededAndNotDeleted id (history NewSecretStore ops) := by
  rw [runOps_has_entry]
  simp [NewSecretStore, NewThreadSafeStore, ThreadSafeStore.Get, lookupItem]


theorem mem_of_lookupItem (key : String) (v : Obj) (items : List (String × Obj))
    (h : lookupItem key items = some v) : (key, v) ∈ items := by
  induction items with
  | nil => simp [lookupItem] at h
  | cons e rest ih =>
    obtain ⟨k, w⟩ := e
    by_cases hk : k = key
    · simp [lookupItem, hk] at h
      simp [hk, h]
    · simp [lookupItem, hk] at h
      exact List.mem_cons_of_mem _ (ih h)

theorem entriesNonEmpty_dropKey (c : ThreadSafeStore) (key : String)
    (h : entriesNonEmpty ⟨c⟩) : entriesNonEmpty ⟨⟨dropKey key c.items⟩⟩ := by
  intro e he
  exact h e (List.mem_of_mem_filter he)

/-- One call keeps every entry a non-empty byte sequence. -/
theorem entriesNonEmpty_step (s : SecretsStore) (op : Op) (h : entriesNonEmpty s) :
    entriesNonEmpty (step s op) := by
  cases op with
  | convert k secret env =>
    by_cases herr : (convertSecret s env k secret).err = none
    · obtain ⟨hne, hi⟩ := convertSecret_success s env k secret herr
      intro e he
      simp only [step, hi, List.mem_cons] at he
      rcases he with he | he
      · exact ⟨env.cout, by simp [he], hne⟩
      · exact h e (List.mem_of_mem_filter he)
    · simpa [step, convertSecret_failure s env k secret herr] using h
  | delete k =>
    exact entriesNonEmpty_dropKey s.Cache k h

theorem entriesNonEmpty_runOps (ops : List Op) (s : SecretsStore) (h : entriesNonEmpty s) :
    entriesNonEmpty (runOps s ops) := by
  induction ops generalizing s with
  | nil => exact h
  | cons op rest ih => exact ih (step s op) (entriesNonEmpty_step s op h)

/-- C8: in every state reachable from NewSecretStore by convertSecret and delete
calls, every entry of the cache is a non-empty byte sequence, and
GetPfxCertificate of an identifier returns a non-empty value exactly when the
identifier has an entry. -/
theorem reachable_entries_non_empty (ops : List Op) (id : String) :
    entriesNonEmpty (runOps NewSecretStore ops) ∧
      (0 < len (GetPfxCertificate (runOps NewSecretStore ops) id) ↔
        (runOps NewSecretStore ops).Cache.Get id ≠ none) := by
  have hinv : entriesNonEmpty (runOps NewSecretStore ops) :=
    entriesNonEmpty_runOps ops NewSecretStore (by
      intro e he
      simp [NewSecretStore, NewThreadSafeStore] at he)
  refine ⟨hinv, ?_⟩
  cases hg : (runOps NewSecretStore ops).Cache.Get id with
  | none => simp [GetPfxCertificate, hg, len]
  | some v =>
    obtain ⟨b, hb, hne⟩ := hinv (id, v) (mem_of_lookupItem id v _ hg)
    simp only at hb
    subst hb
    simp [GetPfxCertificate, hg, len, List.length_pos, hne]

/-! ## Packaging errors and independence of identifiers -/

/-- C9: for a record that passes the type check and the field presence check, when
staging succeeds, convertSecret returns ErrorExportingWithOpenSSL if and only if the
packager reports a failure or its output has length zero; a packager that exits
without error and prints nothing is such a failure. -/
theorem convertSecret_packaging_error_iff (s : SecretsStore) (env : Env) (id : String)
    (secret : Secret) (hs : passesChecks secret) (hst : stagingSucceeds env) :
    ((convertSecret s env id secret).err = some ConvertError.ErrorExportingWithOpenSSL ↔
        (env.runErr ≠ none ∨ env.cout.length = 0)) ∧
      (env.runErr = none → env.cout = [] →
        (convertSecret s env id secret).err = some ConvertError.ErrorExportingWithOpenSSL) := by
  obtain ⟨ht, hk, hc⟩ := hs
  obtain ⟨h1, h2, h3, h4, h5, h6⟩ := hst
  obtain ⟨cn, hcn⟩ := Option.ne_none_iff_exists'.mp h1
  obtain ⟨kn, hkn⟩ := Option.ne_none_iff_exists'.mp h2
  have key : (convertSecret s env id secret).err = some ConvertError.ErrorExportingWithOpenSSL ↔
      (env.runErr ≠ none ∨ env.cout.length = 0) := by
    by_cases hp : env.runErr ≠ none ∨ len (some env.cout) = 0
    · have hp2 : env.runErr ≠ none ∨ env.cout.length = 0 := by simpa [len] using hp
      simp only [hp2, iff_true]
      simp [convertSecret, convertLocked, convertStaged, writeFileDecode, ht, hk, hc, hcn,
        hkn, h3, h4, h5, h6, hp]
    · have hp2 : ¬ (env.runErr ≠ none ∨ env.cout.length = 0) := by simpa [len] using hp
      simp only [hp2, iff_false]
      cases hg : s.Cache.Get id <;>
        simp [convertSecret, convertLocked, convertStaged, writeFileDecode, ht, hk, hc, hcn,
          hkn, h3, h4, h5, h6, hp, hg]
  refine ⟨key, fun _ hout => key.mpr (Or.inr (by simp [hout]))⟩

theorem convertSecret_packaging_error_iff_witness :
    passesChecks sampleSecret ∧ stagingSucceeds (goodEnv []) ∧
      (((convertSecret sampleStore (goodEnv []) "tls-a" sampleSecret).err =
          some ConvertError.ErrorExportingWithOpenSSL ↔
        ((goodEnv []).runErr ≠ none ∨ (goodEnv []).cout.length = 0)) ∧
      ((goodEnv []).runErr = none → (goodEnv []).cout = [] →
        (convertSecret sampleStore (goodEnv []) "tls-a" sampleSecret).err =
          some ConvertError.ErrorExportingWithOpenSSL)) :=
  ⟨by unfold passesChecks; decide, by unfold stagingSucceeds; decide,
    convertSecret_packaging_error_iff sampleStore (goodEnv []) "tls-a" sampleSecret
      (by unfold passesChecks; decide) (by unfold stagingSucceeds; decide)⟩

/-- C10: for two distinct identifiers A and B, neither convertSecret for A, with
any record and any outcome of staging and of the packager, nor delete of A changes
what GetPfxCertificate returns for B; the cache entry of B itself is unchanged, so
the packager output of a conversion for A is stored under A only. -/
theorem no_cross_identifier_interference (s : SecretsStore) (env : Env) (a b : String)
    (secret : Secret) (hab : a ≠ b) :
    GetPfxCertificate (convertSecret s env a secret).store b = GetPfxCertificate s b ∧
      GetPfxCertificate (delete s a) b = GetPfxCertificate s b ∧
      (convertSecret s env a secret).store.Cache.Get b = s.Cache.Get b ∧
      (delete s a).Cache.Get b = s.Cache.Get b := by
  have hba : b ≠ a := fun e => hab e.symm
  have hc : (convertSecret s env a secret).store.Cache.Get b = s.Cache.Get b := by
    by_cases herr : (convertSecret s env a secret).err = none
    · have hi := (convertSecret_success s env a secret herr).2
      simp [ThreadSafeStore.Get, hi, Get_set, hab]
    · rw [convertSecret_failure s env a secret herr]
  have hd : (delete s a).Cache.Get b = s.Cache.Get b := by
    simp [delete, deleteTraced, Get_Delete_ne _ a b hba]
  exact ⟨by simp [GetPfxCertificate, hc], by simp [GetPfxCertificate, hd], hc, hd⟩

theorem no_cross_identifier_interference_witness :
    "tls-b" ≠ "tls-a" ∧
      (GetPfxCertificate (convertSecret sampleStore (goodEnv [48, 130, 9]) "tls-b"
          sampleSecret).store "tls-a" = GetPfxCertificate sampleStore "tls-a" ∧
        GetPfxCertificate (delete sampleStore "tls-b") "tls-a" =
          GetPfxCertificate sampleStore "tls-a" ∧
        (convertSecret sampleStore (goodEnv [48, 130, 9]) "tls-b"
          sampleSecret).store.Cache.Get "tls-a" = sampleStore.Cache.Get "tls-a" ∧
        (delete sampleStore "tls-b").Cache.Get "tls-a" = sampleStore.Cache.Get "tls-a") :=
  ⟨by decide,
    no_cross_identifier_interference sampleStore (goodEnv [48, 130, 9]) "tls-b" "tls-a"
      sampleSecret (by decide)⟩

/-! ## The packaging error and the order of the steps -/

/-- C11 as stated fails: two failing runs of the packager whose outputs on the
standard error differ make convertSecret return the same error value. -/
theorem packaging_error_diagnostic_counterexample :
    ¬ ((failedRunEnv "unable to load private key").cerr ≠
          (failedRunEnv "unable to load certificates").cerr →
        (convertSecret sampleStore (failedRunEnv "unable to load private key") "tls-a"
            sampleSecret).err ≠
          (convertSecret sampleStore (failedRunEnv "unable to load certificates") "tls-a"
            sampleSecret).err) := by
  decide

/-- C11, amended: when the packager fails, the error convertSecret returns is the
fixed value ErrorExportingWithOpenSSL, the same whatever the diagnostic output is;
the diagnostic output and the text of the run error are written to the error log
by the call. -/
theorem packaging_error_fixed_and_logged (s : SecretsStore) (env : Env) (id : String)
    (secret : Secret) (hs : passesChecks secret) (hst : stagingSucceeds env)
    (hf : env.runErr ≠ none ∨ env.cout = []) :
    (convertSecret s env id secret).err = some ConvertError.ErrorExportingWithOpenSSL ∧
      Effect.glogError "unable to export using openssl, error=[%v], stderr=[%v]"
        [errorText env.runErr, env.cerr] ∈ (convertSecret s env id secret).trace := by
  obtain ⟨ht, hk, hc⟩ := hs
  obtain ⟨h1, h2, h3, h4, h5, h6⟩ := hst
  obtain ⟨cn, hcn⟩ := Option.ne_none_iff_exists'.mp h1
  obtain ⟨kn, hkn⟩ := Option.ne_none_iff_exists'.mp h2
  have hp : env.runErr ≠ none ∨ len (some env.cout) = 0 := by simpa [len] using hf
  constructor <;>
    simp [convertSecret, convertLocked, convertStaged, writeFileDecode, ht, hk, hc, hcn,
      hkn, h3, h4, h5, h6, hp]

theorem packaging_error_fixed_and_logged_witness :
    passesChecks sampleSecret ∧ stagingSucceeds (failedRunEnv "unable to load private key") ∧
      (convertSecret sampleStore (failedRunEnv "unable to load private key") "tls-a"
          sampleSecret).err = some ConvertError.ErrorExportingWithOpenSSL ∧
      Effect.glogError "unable to export using openssl, error=[%v], stderr=[%v]"
        [errorText (failedRunEnv "unable to load private key").runErr,
          (failedRunEnv "unable to load private key").cerr] ∈
        (convertSecret sampleStore (failedRunEnv "unable to load private key") "tls-a"
          sampleSecret).trace :=
  ⟨by unfold passesChecks; decide, by unfold stagingSucceeds; decide,
    packaging_error_fixed_and_logged sampleStore (failedRunEnv "unable to load private key")
      "tls-a" sampleSecret (by unfold passesChecks; decide) (by unfold stagingSucceeds; decide)
      (by decide)⟩

/-- C13: the error convertSecret returns is that of the first failing step in the
order type check, field presence check, staging allocation, staging write,
packaging, and nil when no step fails; a record of a wrong type fails with
ErrorUnknownSecretType whatever its fields are, missing or empty ones included; and
when the type check or the field check fails the call creates no temporary file and
does not run the packager. -/
theorem convertSecret_fail_fast (s : SecretsStore) (env : Env) (id : String)
    (secret : Secret) :
    (convertSecret s env id secret).err = (firstFailingStep secret env).map stepError ∧
      (secret.secretType ≠ recognizedSecretType →
        (convertSecret s env id secret).err = some ConvertError.ErrorUnknownSecretType) ∧
      (stepFails secret env ConvertStep.typeCheck = true ∨
          stepFails secret env ConvertStep.fieldCheck = true →
        ∀ e ∈ (convertSecret s env id secret).trace, e.isTempFile = false ∧ e.isRun = false) := by
  refine ⟨?_, ?_, ?_⟩
  · by_cases ht : secret.secretType = recognizedSecretType
    swap
    · simp [convertSecret, convertLocked, firstFailingStep, stepOrder, stepFails, stepError, ht]
    by_cases hf : len (index secret.Data tlsKey) = 0 ∨ len (index secret.Data tlsCrt) = 0
    · simp [convertSecret, convertLocked, firstFailingStep, stepOrder, stepFails, stepError,
        ht, hf]
    cases hc : env.tempfileCert with
    | none =>
      simp [convertSecret, convertLocked, firstFailingStep, stepOrder, stepFails, stepError,
        ht, hf, hc]
    | some c =>
      cases hk : env.tempfileKey with
      | none =>
        simp [convertSecret, convertLocked, firstFailingStep, stepOrder, stepFails, stepError,
          ht, hf, hc, hk]
      | some k =>
        by_cases hp : env.runErr ≠ none ∨ len (some env.cout) = 0
        · have hp2 : env.runErr ≠ none ∨ env.cout = [] := by simpa [len] using hp
          cases hwc : env.writeCert <;> cases hcc : env.closeCert <;>
            cases hwk : env.writeKey <;> cases hck : env.closeKey <;>
            simp [convertSecret, convertLocked, convertStaged, writeFileDecode,
              firstFailingStep, stepOrder, stepFails, stepError, ht, hf, hc, hk, hp, hp2,
              hwc, hcc, hwk, hck]
        · have hp2 : ¬ (env.runErr ≠ none ∨ env.cout = []) := by simpa [len] using hp
          cases hg : s.Cache.Get id <;>
            cases hwc : env.writeCert <;> cases hcc : env.closeCert <;>
            cases hwk : env.writeKey <;> cases hck : env.closeKey <;>
            simp [convertSecret, convertLocked, convertStaged, writeFileDecode,
              firstFailingStep, stepOrder, stepFails, stepError, ht, hf, hc, hk, hp, hp2,
              hwc, hcc, hwk, hck, hg]
  · intro ht
    simp [convertSecret, convertLocked, ht]
  · intro h
    by_cases ht : secret.secretType = recognizedSecretType
    swap
    · simp [convertSecret, convertLocked, ht, Effect.isTempFile, Effect.isRun]
    have hf : len (index secret.Data tlsKey) = 0 ∨ len (index secret.Data tlsCrt) = 0 := by
      simpa [stepFails, ht] using h
    simp [convertSecret, convertLocked, ht, hf, Effect.isTempFile, Effect.isRun]

theorem convertSecret_fail_fast_witness :
    opaqueEmptySecret.secretType ≠ recognizedSecretType ∧
      MissingOrEmpty opaqueEmptySecret.Data tlsCrt ∧
      ((convertSecret sampleStore (goodEnv [48, 130, 9]) "tls-a" opaqueEmptySecret).err =
          (firstFailingStep opaqueEmptySecret (goodEnv [48, 130, 9])).map stepError ∧
        (opaqueEmptySecret.secretType ≠ recognizedSecretType →
          (convertSecret sampleStore (goodEnv [48, 130, 9]) "tls-a" opaqueEmptySecret).err =
            some ConvertError.ErrorUnknownSecretType) ∧
        (stepFails opaqueEmptySecret (goodEnv [48, 130, 9]) ConvertStep.typeCheck = true ∨
            stepFails opaqueEmptySecret (goodEnv [48, 130, 9]) ConvertStep.fieldCheck = true →
          ∀ e ∈ (convertSecret sampleStore (goodEnv [48, 130, 9]) "tls-a"
              opaqueEmptySecret).trace, e.isTempFile = false ∧ e.isRun = false)) :=
  ⟨by decide, Or.inl rfl,
    convertSecret_fail_fast sampleStore (goodEnv [48, 130, 9]) "tls-a" opaqueEmptySecret⟩

/-! ## Staging files -/

theorem stagingAfter_append (files : List String) (t1 t2 : List Effect) :
    stagingAfter files (t1 ++ t2) = stagingAfter (stagingAfter files t1) t2 := by
  simp [stagingAfter, List.foldl_append]

theorem stagingAfterEffect_keepsStaging (files : List String) (e : Effect)
    (h : e.keepsStaging = true) : stagingAfterEffect files e = files := by
  cases e with
  | tempFile p created => cases created <;> simp_all [Effect.keepsStaging, stagingAfterEffect]
  | remove name ok => cases ok <;> simp_all [Effect.keepsStaging, stagingAfterEffect]
  | _ => rfl

/-- Effects that neither create nor remove a file leave the staging files as they were. -/
theorem stagingAfter_keepsStaging (trace : List Effect) (files : List String)
    (h : ∀ e ∈ trace, e.keepsStaging = true) : stagingAfter files trace = files := by
  induction trace with
  | nil => rfl
  | cons e rest ih =>
    have he := stagingAfterEffect_keepsStaging files e (h e (List.mem_cons_self _ _))
    have hrest := ih (fun x hx => h x (List.mem_cons_of_mem _ hx))
    simpa [stagingAfter, List.foldl_cons, he] using hrest

/-- Between the creation of the two files and their removal no file is created or
removed. -/
theorem convertStaged_keepsStaging (s : SecretsStore) (env : Env) (secretKey : String)
    (secret : Secret) (certName keyName : String) :
    ∀ e ∈ (convertStaged s env secretKey secret certName keyName).trace,
      e.keepsStaging = true := by
  cases hg : s.Cache.Get secretKey <;>
    cases hwc : env.writeCert <;> cases hcc : env.closeCert <;>
    cases hwk : env.writeKey <;> cases hck : env.closeKey <;>
    by_cases hp : env.runErr ≠ none ∨ len (some env.cout) = 0 <;>
    simp [convertStaged, writeFileDecode, hg, hwc, hcc, hwk, hck, hp, Effect.keepsStaging]

/-- Every temporary file a conversion created is passed to `os.Remove` before the
call returns. -/
theorem convertSecret_removes_created (s : SecretsStore) (env : Env) (secretKey : String)
    (secret : Secret) (pattern name : String)
    (h : Effect.tempFile pattern (some name) ∈ (convertSecret s env secretKey secret).trace) :
    ∃ ok, Effect.remove name ok ∈ (convertSecret s env secretKey secret).trace := by
  by_cases ht : secret.secretType = recognizedSecretType
  swap
  · simp [convertSecret, convertLocked, ht] at h
  by_cases hf : len (index secret.Data tlsKey) = 0 ∨ len (index secret.Data tlsCrt) = 0
  · simp [convertSecret, convertLocked, ht, hf] at h
  cases hc : env.tempfileCert with
  | none => simp [convertSecret, convertLocked, ht, hf, hc] at h
  | some c =>
    cases hk : env.tempfileKey with
    | none =>
      simp [convertSecret, convertLocked, ht, hf, hc, hk] at h
      exact ⟨env.removeCert, by simp [convertSecret, convertLocked, ht, hf, hc, hk, h.2]⟩
    | some k =>
      have hmid := convertStaged_keepsStaging s env secretKey secret c k
      simp [convertSecret, convertLocked, ht, hf, hc, hk] at h
      rcases h with h | h | h
      · exact ⟨env.removeCert, by simp [convertSecret, convertLocked, ht, hf, hc, hk, h.2]⟩
      · exact ⟨env.removeKey, by simp [convertSecret, convertLocked, ht, hf, hc, hk, h.2]⟩
      · have := hmid _ h
        simp [Effect.keepsStaging] at this

theorem filter_ne_of_not_mem (files : List String) (name : String) (h : name ∉ files) :
    files.filter (fun f => decide (f ≠ name)) = files := by
  rw [List.filter_eq_self]
  intro f hf
  have : f ≠ name := fun e => h (e ▸ hf)
  simpa using this

/-- With fresh names and removals that succeed, the staging files after a
conversion are the staging files before it. -/
theorem stagingAfter_convertSecret (s : SecretsStore) (env : Env) (secretKey : String)
    (secret : Secret) (files : List String) (hfresh : freshNames env files)
    (hrc : env.removeCert = true) (hrk : env.removeKey = true) :
    stagingAfter files (convertSecret s env secretKey secret).trace = files := by
  by_cases ht : secret.secretType = recognizedSecretType
  swap
  · simp [convertSecret, convertLocked, ht, stagingAfter, stagingAfterEffect]
  by_cases hf : len (index secret.Data tlsKey) = 0 ∨ len (index secret.Data tlsCrt) = 0
  · simp [convertSecret, convertLocked, ht, hf, stagingAfter, stagingAfterEffect]
  cases hc : env.tempfileCert with
  | none => simp [convertSecret, convertLocked, ht, hf, hc, stagingAfter, stagingAfterEffect]
  | some c =>
    have hcf : c ∉ files := hfresh.1 c hc
    have hfc := filter_ne_of_not_mem files c hcf
    cases hk : env.tempfileKey with
    | none =>
      simp [convertSecret, convertLocked, ht, hf, hc, hk, stagingAfter, stagingAfterEffect,
        hrc, hfc]
      intro a ha e
      exact hcf (e ▸ ha)
    | some k =>
      have hkf : k ∉ files := (hfresh.2 k hk).1
      have hck : ¬ c = k := by
        intro e
        exact (hfresh.2 k hk).2 (by rw [hc, e])
      have hfk := filter_ne_of_not_mem files k hkf
      have hmid : ∀ fs, List.foldl stagingAfterEffect fs
          (convertStaged s env secretKey secret c k).trace = fs := fun fs =>
        stagingAfter_keepsStaging _ fs (convertStaged_keepsStaging s env secretKey secret c k)
      simp [convertSecret, convertLocked, ht, hf, hc, hk, stagingAfter, stagingAfterEffect,
        List.foldl_append, hmid, hrc, hrk, hfc, hfk, hck, List.filter_cons]
      intro a ha
      exact ⟨fun e => hcf (e ▸ ha), fun e => hkf (e ▸ ha)⟩

/-- C14 as stated fails: on a successful conversion whose deferred removal of the
certificate file returns an error, that file is still there when the call
returns. -/
theorem staging_cleanup_counterexample :
    ¬ (freshNames (stuckRemoveEnv [48, 130, 9]) [] →
        ∀ f, f ∈ stagingAfter [] (convertSecret NewSecretStore (stuckRemoveEnv [48, 130, 9])
          "tls-a" sampleSecret).trace ↔ f ∈ ([] : List String)) := by
  intro h
  have hfresh : freshNames (stuckRemoveEnv [48, 130, 9]) [] := by
    refine ⟨fun c _ => List.not_mem_nil c, fun k hk => ⟨List.not_mem_nil k, ?_⟩⟩
    simp only [stuckRemoveEnv, Option.some.injEq] at hk
    subst hk
    decide
  have hmem : "/tmp/appgw-ingress-cert1" ∈ stagingAfter []
      (convertSecret NewSecretStore (stuckRemoveEnv [48, 130, 9]) "tls-a" sampleSecret).trace := by
    decide
  exact List.not_mem_nil _ ((h hfresh "/tmp/appgw-ingress-cert1").mp hmem)

/-- C14, amended: on every exit path of convertSecret, whatever the outcomes of the
operating system are (failing removals included), every temporary staging file the
call created is passed to os.Remove before the call returns; when the names are
fresh and those removals succeed, the set of staging files after the call equals
the set before it. -/
theorem staging_cleanup_when_removed (s : SecretsStore) (env : Env) (id : String)
    (secret : Secret) (files : List String) :
    (∀ pattern name,
        Effect.tempFile pattern (some name) ∈ (convertSecret s env id secret).trace →
        ∃ ok, Effect.remove name ok ∈ (convertSecret s env id secret).trace) ∧
      (freshNames env files → env.removeCert = true → env.removeKey = true →
        ∀ f, f ∈ stagingAfter files (convertSecret s env id secret).trace ↔ f ∈ files) := by
  refine ⟨fun pattern name h => convertSecret_removes_created s env id secret pattern name h, ?_⟩
  intro hfresh hrc hrk f
  rw [stagingAfter_convertSecret s env id secret files hfresh hrc hrk]

theorem goodEnv_freshNames (out : List Byte) : freshNames (goodEnv out) ["/tmp/other"] := by
  refine ⟨fun c hc => ?_, fun k hk => ⟨?_, ?_⟩⟩
  · simp only [goodEnv, Option.some.injEq] at hc
    subst hc
    decide
  · simp only [goodEnv, Option.some.injEq] at hk
    subst hk
    decide
  · simp only [goodEnv, Option.some.injEq] at hk
    subst hk
    simp [goodEnv]

theorem staging_cleanup_when_removed_witness :
    (stuckRemoveEnv [48, 130, 9]).removeCert = false ∧
      (∀ pattern name,
        Effect.tempFile pattern (some name) ∈
          (convertSecret sampleStore (stuckRemoveEnv [48, 130, 9]) "tls-a" sampleSecret).trace →
        ∃ ok, Effect.remove name ok ∈
          (convertSecret sampleStore (stuckRemoveEnv [48, 130, 9]) "tls-a" sampleSecret).trace) ∧
      freshNames (goodEnv []) ["/tmp/other"] ∧
      (goodEnv []).removeCert = true ∧ (goodEnv []).removeKey = true ∧
      (∀ f, f ∈ stagingAfter ["/tmp/other"]
        (convertSecret sampleStore (goodEnv []) "tls-a" sampleSecret).trace ↔
          f ∈ ["/tmp/other"]) :=
  ⟨rfl,
    (staging_cleanup_when_removed sampleStore (stuckRemoveEnv [48, 130, 9]) "tls-a"
      sampleSecret []).1,
    goodEnv_freshNames [], rfl, rfl,
    (staging_cleanup_when_removed sampleStore (goodEnv []) "tls-a" sampleSecret
      ["/tmp/other"]).2 (goodEnv_freshNames []) rfl rfl⟩

end K8sContext
